import Mathlib

/-!
Verification development for the rloxj tree-walking Lox interpreter.

The definitions below are shallow embeddings of the Rust source files
`scanner.rs`, `token.rs`, `expr.rs`, `stmt.rs`, `environment.rs`,
`resolver.rs`, `interpreter.rs`, `lox_object.rs` and `error.rs`.
Machine floats (`f64`) are modelled by the inductive `F64` below, which
keeps the features the properties under study can observe (NaN with its
non-reflexive equality, signed infinities from division by zero, exact
finite values as rationals); decimal rounding and the sign of zero are
collapsed, and no property here depends on them.  `HashMap` is modelled
by an association list whose insert replaces the first matching key.
Rust panics (`unreachable!`, arithmetic underflow, `unwrap` on `None`)
are modelled explicitly: either as `Option.none` or as the `RErr.panic`
error variant, as noted at each definition.
-/

namespace Rloxj

/-! ## The f64 value model -/

/-- Model of an `f64`: NaN, a signed infinity, or an exact finite value.
The sign of zero and rounding of finite results are collapsed. -/
inductive F64 where
  | nan : F64
  | inf (neg : Bool) : F64
  | fin (q : ℚ) : F64
deriving DecidableEq, Repr

/-- Rust `==` on `f64`: NaN compares unequal to everything, itself included. -/
def F64.beq : F64 → F64 → Bool
  | .nan, _ => false
  | _, .nan => false
  | .inf s, .inf t => decide (s = t)
  | .inf _, .fin _ => false
  | .fin _, .inf _ => false
  | .fin a, .fin b => decide (a = b)

/-- IEEE negation on the modelled domain. -/
def F64.neg : F64 → F64
  | .nan => .nan
  | .inf s => .inf (!s)
  | .fin q => .fin (-q)

/-- IEEE `<` on the modelled domain: false whenever NaN is involved. -/
def F64.lt : F64 → F64 → Bool
  | .nan, _ => false
  | _, .nan => false
  | .inf true, .inf true => false
  | .inf true, _ => true
  | _, .inf true => false
  | .inf false, _ => false
  | .fin _, .inf false => true
  | .fin a, .fin b => decide (a < b)

/-- IEEE `<=`: `a <= b` iff `a < b` or `a == b` (false on NaN). -/
def F64.le (a b : F64) : Bool := F64.lt a b || F64.beq a b

/-- IEEE `>`. -/
def F64.gt (a b : F64) : Bool := F64.lt b a

/-- IEEE `>=`. -/
def F64.ge (a b : F64) : Bool := F64.le b a

/-- IEEE addition on the modelled domain (finite overflow collapsed). -/
def F64.add : F64 → F64 → F64
  | .nan, _ => .nan
  | _, .nan => .nan
  | .inf s, .inf t => if s = t then .inf s else .nan
  | .inf s, .fin _ => .inf s
  | .fin _, .inf t => .inf t
  | .fin a, .fin b => .fin (a + b)

/-- IEEE subtraction: `a - b = a + (-b)` exactly on this domain. -/
def F64.sub (a b : F64) : F64 := F64.add a (F64.neg b)

/-- Sign bit used to direct infinities produced by multiplication and
division (zero counts as positive, matching the collapsed `+0`). -/
def F64.signBit : F64 → Bool
  | .nan => false
  | .inf s => s
  | .fin q => decide (q < 0)

/-- IEEE multiplication on the modelled domain. -/
def F64.mul : F64 → F64 → F64
  | .nan, _ => .nan
  | _, .nan => .nan
  | .inf s, .inf t => .inf (xor s t)
  | .inf s, .fin q => if q = 0 then .nan else .inf (xor s (decide (q < 0)))
  | .fin q, .inf t => if q = 0 then .nan else .inf (xor (decide (q < 0)) t)
  | .fin a, .fin b => .fin (a * b)

/-- IEEE division on the modelled domain.  In particular `x / 0` is NaN
when `x = 0` and a signed infinity otherwise: division never traps. -/
def F64.div : F64 → F64 → F64
  | .nan, _ => .nan
  | _, .nan => .nan
  | .inf _, .inf _ => .nan
  | .inf s, .fin q => .inf (xor s (decide (q < 0)))
  | .fin _, .inf _ => .fin 0
  | .fin a, .fin b =>
      if b = 0 then (if a = 0 then .nan else .inf (decide (a < 0)))
      else .fin (a / b)

/-! ## Tokens (`token.rs`, `token_type.rs`) -/

/-- The closed set of token kinds (`token_type.rs`). -/
inductive TokenType where
  | leftParen | rightParen | leftBrace | rightBrace | comma | dot
  | minus | plus | semicolon | slash | star
  | bang | bangEqual | equal | equalEqual
  | greater | greaterEqual | less | lessEqual
  | identifier | string | number
  | and | «class» | «else» | false | fun | «for» | «if» | nil | or
  | print | «return» | «super» | this | true | var | «while»
  | EOF
deriving DecidableEq, Repr

/-- Literal payload carried by a token (`expr.rs` LiteralKind, referenced
from `token.rs`). -/
inductive LiteralKind where
  | str (s : String)
  | num (n : F64)
  | tru
  | fls
  | nil
deriving DecidableEq, Repr

/-- A token (`token.rs`): kind, lexeme, optional literal, line, position. -/
structure Token where
  token_type : TokenType
  lexeme : String
  literal : Option LiteralKind
  line : Nat
  position : Nat
deriving DecidableEq, Repr

/-- A runtime or static diagnostic (`error.rs` LoxError). -/
structure LoxError where
  line : Nat
  message : String
  position : Nat
deriving DecidableEq, Repr

/-! ## The AST (`expr.rs`, `stmt.rs`)

`Variable` and `Assign` nodes carry a `nodeId : Nat` modelling the
pointer identity (`ByAddress`) the resolver keys its side table with;
`Function` statements carry a `declId : Nat` modelling the pointer
identity of the declaration `Rc` that `FunctionObject` equality tests. -/

inductive Expr where
  | literal (value : LiteralKind)
  | unary (operator : Token) (expr : Expr)
  | binary (left : Expr) (operator : Token) (right : Expr)
  | grouping (expr : Expr)
  | noOp
  | variable (nodeId : Nat) (name : Token)
  | assign (nodeId : Nat) (name : Token) (value : Expr)
  | logical (left : Expr) (operator : Token) (right : Expr)
  | call (callee : Expr) (paren : Token) (arguments : List Expr)

inductive Stmt where
  | expression (expr : Expr)
  | print (expr : Expr)
  | var (name : Token) (initializer : Expr)
  | block (statements : List Stmt)
  | ifS (condition : Expr) (then_branch : Stmt) (else_branch : Stmt)
  | whileS (condition : Expr) (body : Stmt)
  | function (declId : Nat) (name : Token) (params : List Token) (body : List Stmt)
  | returnS (keyword : Token) (value : Option Expr)

/-! ## Runtime values (`lox_object.rs`) -/

/-- A runtime value (`lox_object.rs` LoxObject).  `function` bundles the
fields of `FunctionObject`: arity, the declaration (identity `declId`
plus its params and body) and the id of the captured environment in the
interpreter store. -/
inductive LoxObject where
  | none
  | nil
  | bool (b : Bool)
  | number (n : F64)
  | string (s : String)
  | function (arity : Nat) (declId : Nat) (params : List Token)
      (body : List Stmt) (envId : Nat)
  | returnValue (r : LoxObject)

/-- Derived `PartialEq` on LoxObject: variant-wise; the `Function` arm
uses `impl PartialEq for FunctionObject`, which compares arity and the
pointer identity of the declaration and ignores the environment. -/
def loxEq : LoxObject → LoxObject → Bool
  | .none, .none => Bool.true
  | .nil, .nil => Bool.true
  | .bool a, .bool b => decide (a = b)
  | .number a, .number b => F64.beq a b
  | .string a, .string b => decide (a = b)
  | .function a1 d1 _ _ _, .function a2 d2 _ _ _ =>
      decide (a1 = a2) && decide (d1 = d2)
  | .returnValue a, .returnValue b => loxEq a b
  | _, _ => Bool.false

/-- Source `is_equal` (`expr.rs`): Nil equals only Nil, everything else defers
to the derived `==`. -/
def is_equal (left right : LoxObject) : Bool :=
  match left, right with
  | .nil, .nil => Bool.true
  | .nil, _ => Bool.false
  | _, _ => loxEq left right

/-- Source `is_truthy` (`stmt.rs`): None and Nil are falsey, bools are
themselves, everything else is truthy. -/
def is_truthy : LoxObject → Bool
  | .none => Bool.false
  | .nil => Bool.false
  | .bool b => b
  | _ => Bool.true

/-- Decimal rendering of the modelled f64, used by `to_string`.  Rust
prints f64 with its shortest-round-trip decimal form; the claims proved
here only ever observe the non-number branches of `to_string`, so
non-integral rationals are rendered as num/den here. -/
def F64.display : F64 → String
  | .nan => "NaN"
  | .inf Bool.true => "-inf"
  | .inf Bool.false => "inf"
  | .fin q =>
      if q.den = 1 then toString q.num
      else toString q.num ++ "/" ++ toString q.den

/-- Source `LoxObject::to_string` (`lox_object.rs`): the internal None marker
renders as the empty string, Nil as "nil". -/
def LoxObject.to_string : LoxObject → String
  | .none => ""
  | .nil => "nil"
  | .bool b => if b then "true" else "false"
  | .number n => F64.display n
  | .string s => s
  | .function _ _ _ _ _ => "Function callable"
  | .returnValue r => r.to_string

/-! ## Runtime errors and panics -/

/-- Outcome tags for modelled execution: a Lox runtime error, a Rust
panic (`unreachable!`, out-of-bounds `unwrap`), or fuel exhaustion of
the model (not a program behaviour). -/
inductive RErr where
  | lox (e : LoxError)
  | panic
  | fuel
deriving DecidableEq, Repr

/-- Source `throw_num_operands_error` (`expr.rs`). -/
def throw_num_operands_error (operator : Token) : Except RErr LoxObject :=
  .error (.lox ⟨operator.line, "Operands must both be numbers.", operator.position⟩)

/-- Source `is_num_operand` (`expr.rs`): Ok for numbers, error otherwise. -/
def is_num_operand (operator : Token) (expr : LoxObject) : Except RErr Unit :=
  match expr with
  | .number _ => .ok ()
  | _ => .error (.lox ⟨operator.line, "Operand must be number.", operator.position⟩)

/-- The value dispatch of `Unary::eval` (`expr.rs`), applied to the
already evaluated operand.  Token kinds other than `-` and `!` hit the
source `unreachable!()`, modelled as `RErr.panic`. -/
def evalUnaryOp (operator : Token) (v : LoxObject) : Except RErr LoxObject :=
  match operator.token_type with
  | .minus =>
      match is_num_operand operator v with
      | .error e => .error e
      | .ok _ =>
          match v with
          | .number n => .ok (.number (F64.neg n))
          | _ => .error .panic
  | .bang =>
      match v with
      | .bool b => .ok (.bool (!b))
      | .nil => .ok (.bool Bool.true)
      | _ => .error (.lox ⟨operator.line,
          "Cannot convert expression to truthy/falsy.", operator.position⟩)
  | _ => .error .panic

/-- The value dispatch of `Binary::eval` (`expr.rs`), applied to the two
already evaluated operands.  Token kinds that are not binary operators
hit the source `unreachable!()`, modelled as `RErr.panic`. -/
def evalBinaryOp (operator : Token) (left right : LoxObject) : Except RErr LoxObject :=
  match operator.token_type with
  | .minus =>
      match left, right with
      | .number a, .number b => .ok (.number (F64.sub a b))
      | _, _ => throw_num_operands_error operator
  | .slash =>
      match left, right with
      | .number a, .number b => .ok (.number (F64.div a b))
      | _, _ => throw_num_operands_error operator
  | .star =>
      match left, right with
      | .number a, .number b => .ok (.number (F64.mul a b))
      | _, _ => throw_num_operands_error operator
  | .plus =>
      match left, right with
      | .number a, .number b => .ok (.number (F64.add a b))
      | .string a, .string b => .ok (.string (a ++ b))
      | _, _ => throw_num_operands_error operator
  | .greater =>
      match left, right with
      | .number a, .number b => .ok (.bool (F64.gt a b))
      | _, _ => throw_num_operands_error operator
  | .greaterEqual =>
      match left, right with
      | .number a, .number b => .ok (.bool (F64.ge a b))
      | _, _ => throw_num_operands_error operator
  | .less =>
      match left, right with
      | .number a, .number b => .ok (.bool (F64.lt a b))
      | _, _ => throw_num_operands_error operator
  | .lessEqual =>
      match left, right with
      | .number a, .number b => .ok (.bool (F64.le a b))
      | _, _ => throw_num_operands_error operator
  | .equalEqual => .ok (.bool (is_equal left right))
  | .bangEqual => .ok (.bool (!is_equal left right))
  | _ => .error .panic

/-! ## Association lists modelling `HashMap<String, V>` -/

/-- Model of `HashMap::get`: first binding of the key, if any. -/
def hmGet {V : Type} : List (String × V) → String → Option V
  | [], _ => Option.none
  | (k, v) :: rest, key => if k = key then some v else hmGet rest key

/-- Model of `HashMap::contains_key`. -/
def hmContains {V : Type} (m : List (String × V)) (key : String) : Bool :=
  (hmGet m key).isSome

/-- Model of `HashMap::insert`: replace the first binding of the key, or
append a new binding when the key is absent. -/
def hmInsert {V : Type} : List (String × V) → String → V → List (String × V)
  | [], key, v => [(key, v)]
  | (k, w) :: rest, key, v =>
      if k = key then (k, v) :: rest else (k, w) :: hmInsert rest key v

/-- Model of `HashMap::insert` keyed by node identity (the interpreter locals
table, `HashMap<ByAddress<Rc<dyn Expr>>, i32>`). -/
def localsInsert : List (Nat × Int) → Nat → Int → List (Nat × Int)
  | [], key, v => [(key, v)]
  | (k, w) :: rest, key, v =>
      if k = key then (k, v) :: rest else (k, w) :: localsInsert rest key v

/-- Lookup in the locals table. -/
def localsGet : List (Nat × Int) → Nat → Option Int
  | [], _ => Option.none
  | (k, v) :: rest, key => if k = key then some v else localsGet rest key

/-! ## The environment chain (`environment.rs`)

`Environment` is a bindings table plus an optional parent.  For the
claims about `get`/`assign` on a single chain, the chain is modelled as
the inductive value below (sharing through `Rc<RefCell<..>>` plays no
role in a single lookup or assignment). -/

inductive Env where
  | mk (values : List (String × LoxObject)) (enclosing : Option Env)

/-- The bindings table of the innermost frame. -/
def Env.values : Env → List (String × LoxObject)
  | .mk vs _ => vs

/-- The parent link. -/
def Env.enclosing : Env → Option Env
  | .mk _ p => p

/-- Source `Environment::define`: unconditional insert in this frame. -/
def Env.define (e : Env) (name : String) (value : LoxObject) : Env :=
  .mk (hmInsert e.values name value) e.enclosing

/-- Source `Environment::get`: look in this frame, else recurse into the
parent, else error.  Note the source message has no quotes around the
name: `format!("Undefined variable {}.", name.lexeme())`. -/
def Env.get : Env → Token → Except LoxError LoxObject
  | .mk values enclosing, name =>
      match hmGet values name.lexeme with
      | some x => .ok x
      | Option.none =>
          match enclosing with
          | some parent => parent.get name
          | Option.none =>
              .error ⟨name.line, "Undefined variable " ++ name.lexeme ++ ".", name.position⟩

/-- Source `Environment::assign`: update in this frame if it defines the name,
else recurse into the parent, else error; never inserts a new binding. -/
def Env.assign : Env → Token → LoxObject → Except LoxError Env
  | .mk values enclosing, name, value =>
      if hmContains values name.lexeme then
        .ok (.mk (hmInsert values name.lexeme value) enclosing)
      else
        match enclosing with
        | some parent =>
            match parent.assign name value with
            | .ok parent2 => .ok (.mk values (some parent2))
            | .error e => .error e
        | Option.none =>
            .error ⟨name.line, "Undefined variable " ++ name.lexeme ++ ".", name.position⟩

/-- The list of frames of a chain, innermost first. -/
def Env.frames : Env → List (List (String × LoxObject))
  | .mk vs Option.none => [vs]
  | .mk vs (some p) => vs :: p.frames

/-- Does some frame of the chain define the name? -/
def Env.chainContains : Env → String → Bool
  | .mk vs Option.none, n => hmContains vs n
  | .mk vs (some p), n => hmContains vs n || p.chainContains n

/-- The per-frame lookups of a name, innermost first (a spec-side
observation used to state what `assign` may and may not change). -/
def Env.lookups (e : Env) (n : String) : List (Option LoxObject) :=
  e.frames.map (fun f => hmGet f n)

/-- The per-frame key lists (spec-side observation: `assign` never
creates or removes a binding, so these are invariant). -/
def Env.keyShape (e : Env) : List (List String) :=
  e.frames.map (fun f => f.map Prod.fst)

/-- Spec-side helper: what the amended assignment claim says happens to
the per-frame lookups of the assigned name — the innermost frame that
defines it now maps it to `v`, every other frame is untouched. -/
def updateNearest : List (Option LoxObject) → LoxObject → List (Option LoxObject)
  | [], _ => []
  | Option.none :: rest, v => Option.none :: updateNearest rest v
  | some _ :: rest, v => some v :: rest

/-! ## The interpreter views of variable access (`expr.rs`,
`interpreter.rs`)

Both the `Expr` trait implementation (`Variable::eval`, `Assign::eval`)
and the `Evaluator` implementation (`eval_variable`, `eval_assign`)
perform a plain chain walk; the resolver side table `locals` is a field
of `Interpreter` that `resolve` writes and nothing reads. -/

/-- Source `Interpreter::resolve` (`interpreter.rs`): record a depth for a node
in the side table. -/
def Interpreter.resolve (locals : List (Nat × Int)) (nodeId : Nat) (depth : Int) :
    List (Nat × Int) :=
  localsInsert locals nodeId depth

/-- Source `Interpreter::eval_variable` (`interpreter.rs`), with the locals
table made explicit: the source body is
`self.environment.borrow_mut().get(&expr.name)` — `self.locals` is not
consulted. -/
def Interpreter.eval_variable (locals : List (Nat × Int)) (nodeId : Nat)
    (environment : Env) (name : Token) : Except LoxError LoxObject :=
  let _ := locals
  let _ := nodeId
  environment.get name

/-- Source `Interpreter::eval_assign` (`interpreter.rs`), with the locals table
made explicit: assigns through a plain chain walk and returns the value;
`self.locals` is not consulted. -/
def Interpreter.eval_assign (locals : List (Nat × Int)) (nodeId : Nat)
    (environment : Env) (name : Token) (value : LoxObject) :
    Except LoxError (LoxObject × Env) :=
  let _ := locals
  let _ := nodeId
  match environment.assign name value with
  | .ok env2 => .ok (value, env2)
  | .error e => .error e

/-- Spec-side definition (spec §4.4): `ancestor(depth)` follows exactly
`depth` parent links.  No such function exists in the source; this is
the comparison point for the claim that the interpreter uses
`ancestor(depth).get/assign` when a depth was recorded. -/
def Env.ancestorSpec : Env → Nat → Option Env
  | e, 0 => some e
  | .mk _ Option.none, _ + 1 => Option.none
  | .mk _ (some p), d + 1 => p.ancestorSpec d

/-- Spec-side definition: the lookup the claim says a depth-annotated
node performs — `ancestor(depth).get(name)`. -/
def Env.getAtSpec (e : Env) (depth : Nat) (name : Token) :
    Option (Except LoxError LoxObject) :=
  (e.ancestorSpec depth).map (fun a => a.get name)

/-! ## The resolver (`resolver.rs`)

Scopes are a stack (`Vec`) of `HashMap<String, bool>`; index 0 is the
outermost open scope and the last element the innermost. -/

/-- One step of the `resolve_local` loop at index `i`: if scope `i`
contains the name, record depth `scopes.len() - 1 - i` for the node. -/
def rlStep (scopes : List (List (String × Bool))) (lex : String) (nodeId : Nat)
    (i : Nat) (locals : List (Nat × Int)) : List (Nat × Int) :=
  if hmContains (scopes.getD i []) lex then
    Interpreter.resolve locals nodeId (Int.ofNat (scopes.length - 1 - i))
  else locals

/-- The `for i in (0..=len-1).rev()` loop body of `resolve_local`,
iterating `i` from `len - 1` down to `0`; there is no early exit, so
every containing scope triggers an insert and later (outer) matches
overwrite earlier (inner) ones. -/
def rlGo (scopes : List (List (String × Bool))) (lex : String) (nodeId : Nat) :
    Nat → List (Nat × Int) → List (Nat × Int)
  | 0, locals => rlStep scopes lex nodeId 0 locals
  | i + 1, locals => rlGo scopes lex nodeId i (rlStep scopes lex nodeId (i + 1) locals)

/-- Source `Resolver::resolve_local` (`resolver.rs`).  With an empty scope
stack the source range `0..=self.scopes.len() - 1` underflows: in a
debug build the subtraction panics, in a release build it wraps and
`self.scopes.get(usize::MAX).unwrap()` panics; both are modelled as
`Option.none`. -/
def resolve_local (scopes : List (List (String × Bool))) (nodeId : Nat)
    (name : Token) (locals : List (Nat × Int)) : Option (List (Nat × Int)) :=
  match scopes.length with
  | 0 => Option.none
  | n + 1 => some (rlGo scopes name.lexeme nodeId n locals)

/-- Source `Variable::resolve` (`expr.rs`): the
read-in-own-initializer check, then `resolve_local`.  The outer `none`
models the panic inside `resolve_local`; `Except` carries the static
resolver error. -/
def Variable.resolve (scopes : List (List (String × Bool))) (nodeId : Nat)
    (name : Token) (locals : List (Nat × Int)) :
    Option (Except LoxError (List (Nat × Int))) :=
  if scopes ≠ [] ∧ hmGet (scopes.getLastD []) name.lexeme = some Bool.false then
    some (.error ⟨name.line,
      "Can" ++ String.mk [Char.ofNat 39] ++ "t read local variable in it" ++
        String.mk [Char.ofNat 39] ++ "s own initializer",
      name.position⟩)
  else
    (resolve_local scopes nodeId name locals).map .ok

/-- Spec-side helper: the first (outermost) scope index `≤ i` whose
table contains the name, scanning indices upward from 0. -/
def firstContainingLE (scopes : List (List (String × Bool))) (lex : String) :
    Nat → Option Nat
  | 0 => if hmContains (scopes.getD 0 []) lex then some 0 else Option.none
  | i + 1 =>
      match firstContainingLE scopes lex i with
      | some k => some k
      | Option.none =>
          if hmContains (scopes.getD (i + 1) []) lex then some (i + 1) else Option.none

/-! ## The scanner (`scanner.rs`)

The scanner of this repository predates the token `position` field (its
`Token::new` calls pass kind, lexeme, literal and line only), so its
output tokens are modelled by `ScanToken` without a position. -/

/-- A token as built by `scanner.rs`. -/
structure ScanToken where
  token_type : TokenType
  lexeme : String
  literal : Option LiteralKind
  line : Nat
deriving DecidableEq, Repr

/-- Scanner state (`scanner.rs` Scanner): source characters, tokens so
far, lexeme start, current position, current line. -/
structure ScanState where
  source : List Char
  tokens : List ScanToken
  start : Nat
  current : Nat
  line : Nat
deriving Repr

/-- Source `Scanner::is_at_end`. -/
def ScanState.is_at_end (st : ScanState) : Bool :=
  decide (st.current ≥ st.source.length)

/-- The NUL character the source peeks return at end of input. -/
def nulChar : Char := Char.ofNat 0

/-- Source `Scanner::peek`. -/
def ScanState.peek (st : ScanState) : Char :=
  if st.is_at_end then nulChar else st.source.getD st.current nulChar

/-- Source `Scanner::peek_max`. -/
def ScanState.peek_max (st : ScanState) : Char :=
  if st.current + 1 ≥ st.source.length then nulChar
  else st.source.getD (st.current + 1) nulChar

/-- Source `Scanner::advance`: return the current character and step
past it.  The source `unwrap` cannot fail because every caller has
checked `is_at_end`; `getD` mirrors that. -/
def ScanState.advance (st : ScanState) : Char × ScanState :=
  (st.source.getD st.current nulChar, { st with current := st.current + 1 })

/-- Source `Scanner::next_char`: conditional single-character lookahead. -/
def ScanState.next_char (st : ScanState) (expected : Char) : Bool × ScanState :=
  if st.is_at_end then (Bool.false, st)
  else if st.source.getD st.current nulChar ≠ expected then (Bool.false, st)
  else (Bool.true, { st with current := st.current + 1 })

/-- The current lexeme `source[start..current]`. -/
def ScanState.lexemeChars (st : ScanState) : List Char :=
  (st.source.drop st.start).take (st.current - st.start)

/-- Source `Scanner::add_token`. -/
def ScanState.add_token (st : ScanState) (tt : TokenType)
    (lit : Option LiteralKind) : ScanState :=
  { st with tokens := st.tokens ++ [⟨tt, String.mk st.lexemeChars, lit, st.line⟩] }

/-- Source `Scanner::is_alpha`: letters and underscore.  Note this is
used only to continue an identifier; `scan_token` dispatches on plain
letter ranges without the underscore. -/
def is_alpha (c : Char) : Bool :=
  (decide ('a' ≤ c) && decide (c ≤ 'z')) ||
  (decide ('A' ≤ c) && decide (c ≤ 'Z')) || decide (c = '_')

/-- Source `Scanner::is_digit`. -/
def is_digit (c : Char) : Bool :=
  decide ('0' ≤ c) && decide (c ≤ '9')

/-- Source `Scanner::keywords`: the fixed keyword table. -/
def keywords (candidate : String) : Option TokenType :=
  if candidate = "and" then some .and
  else if candidate = "class" then some .class
  else if candidate = "else" then some .else
  else if candidate = "false" then some .false
  else if candidate = "for" then some .for
  else if candidate = "fun" then some .fun
  else if candidate = "if" then some .if
  else if candidate = "nil" then some .nil
  else if candidate = "or" then some .or
  else if candidate = "print" then some .print
  else if candidate = "return" then some .return
  else if candidate = "super" then some .super
  else if candidate = "this" then some .this
  else if candidate = "true" then some .true
  else if candidate = "var" then some .var
  else if candidate = "while" then some .while
  else Option.none

/-- The while-loop of `Scanner::identifier`: consume alphanumerics and
underscores.  Fuel bounds the loop; any fuel above the source length is
enough because `peek` is NUL at end of input. -/
def identLoop : Nat → ScanState → ScanState
  | 0, st => st
  | f + 1, st =>
      if is_alpha st.peek || is_digit st.peek then identLoop f (st.advance).2
      else st

/-- Source `Scanner::identifier`. -/
def identifier (st : ScanState) : ScanState :=
  let st := identLoop (st.source.length + 1) st
  let text := String.mk st.lexemeChars
  let tt := match keywords text with
            | some x => x
            | Option.none => TokenType.identifier
  st.add_token tt Option.none

/-- Numeric value of a digit string. -/
def digitsVal (cs : List Char) : Nat :=
  cs.foldl (fun a c => a * 10 + (c.toNat - 48)) 0

/-- Value of a number lexeme `[0-9]+(.[0-9]+)?` as an exact decimal.
Rust `parse::<f64>` rounds this to the nearest double; the rounding is
collapsed in the model. -/
def parseNumLexeme (cs : List Char) : F64 :=
  let intPart := cs.takeWhile (fun c => c ≠ '.')
  match cs.dropWhile (fun c => c ≠ '.') with
  | [] => .fin (digitsVal intPart)
  | _ :: frac =>
      .fin ((digitsVal intPart : ℚ) + (digitsVal frac : ℚ) / ((10 : ℚ) ^ frac.length))

/-- The digit-consuming loop of `Scanner::number`. -/
def digitLoop : Nat → ScanState → ScanState
  | 0, st => st
  | f + 1, st => if is_digit st.peek then digitLoop f (st.advance).2 else st

/-- Source `Scanner::number`. -/
def number (st : ScanState) : ScanState :=
  let st := digitLoop (st.source.length + 1) st
  let st :=
    if st.peek = '.' && is_digit st.peek_max then
      digitLoop (st.source.length + 1) (st.advance).2
    else st
  st.add_token .number (some (.num (parseNumLexeme st.lexemeChars)))

/-- The character-consuming loop of `Scanner::string`, tracking line
breaks inside the literal. -/
def stringLoop : Nat → ScanState → ScanState
  | 0, st => st
  | f + 1, st =>
      if st.peek ≠ '"' && !st.is_at_end then
        let st := if st.peek = '\n' then { st with line := st.line + 1 } else st
        stringLoop f (st.advance).2
      else st

/-- Source `Scanner::string`: returns the state paired with the
unterminated-string error, if any. -/
def stringLit (st : ScanState) : ScanState × Option LoxError :=
  let st := stringLoop (st.source.length + 1) st
  if st.is_at_end then
    (st, some ⟨st.line, "Unterminated string", st.current⟩)
  else
    let st := (st.advance).2
    let value := String.mk ((st.source.drop (st.start + 1)).take (st.current - 1 - (st.start + 1)))
    (st.add_token .string (some (.str value)), Option.none)

/-- The line-comment loop of `scan_token` for `//`. -/
def commentLoop : Nat → ScanState → ScanState
  | 0, st => st
  | f + 1, st =>
      if st.peek ≠ '\n' && !st.is_at_end then commentLoop f (st.advance).2 else st

/-- Source `Scanner::scan_token`: scan one token starting at `current`.
Identifier dispatch accepts only `a..=z | A..=Z`; an underscore falls
through to the catch-all and produces the error "Unexpected character.".
Errors are returned alongside the state the source mutations left. -/
def scan_token (st : ScanState) : ScanState × Option LoxError :=
  let (c, st) := st.advance
  if c = '(' then (st.add_token .leftParen Option.none, Option.none)
  else if c = ')' then (st.add_token .rightParen Option.none, Option.none)
  else if c = '{' then (st.add_token .leftBrace Option.none, Option.none)
  else if c = '}' then (st.add_token .rightBrace Option.none, Option.none)
  else if c = ',' then (st.add_token .comma Option.none, Option.none)
  else if c = '.' then (st.add_token .dot Option.none, Option.none)
  else if c = '-' then (st.add_token .minus Option.none, Option.none)
  else if c = '+' then (st.add_token .plus Option.none, Option.none)
  else if c = ';' then (st.add_token .semicolon Option.none, Option.none)
  else if c = '*' then (st.add_token .star Option.none, Option.none)
  else if c = '!' then
    match st.next_char '=' with
    | (Bool.true, st) => (st.add_token .bangEqual Option.none, Option.none)
    | (Bool.false, st) => (st.add_token .bang Option.none, Option.none)
  else if c = '=' then
    match st.next_char '=' with
    | (Bool.true, st) => (st.add_token .equalEqual Option.none, Option.none)
    | (Bool.false, st) => (st.add_token .equal Option.none, Option.none)
  else if c = '<' then
    match st.next_char '=' with
    | (Bool.true, st) => (st.add_token .lessEqual Option.none, Option.none)
    | (Bool.false, st) => (st.add_token .less Option.none, Option.none)
  else if c = '>' then
    match st.next_char '=' with
    | (Bool.true, st) => (st.add_token .greaterEqual Option.none, Option.none)
    | (Bool.false, st) => (st.add_token .greater Option.none, Option.none)
  else if c = '/' then
    match st.next_char '/' with
    | (Bool.true, st) => (commentLoop (st.source.length + 1) st, Option.none)
    | (Bool.false, st) => (st.add_token .slash Option.none, Option.none)
  else if c = ' ' ∨ c = '\r' ∨ c = '\t' then (st, Option.none)
  else if c = '\n' then ({ st with line := st.line + 1 }, Option.none)
  else if c = '"' then stringLit st
  else if is_digit c then (number st, Option.none)
  else if (decide ('a' ≤ c) && decide (c ≤ 'z')) ||
          (decide ('A' ≤ c) && decide (c ≤ 'Z')) then
    (identifier st, Option.none)
  else (st, some ⟨st.line, "Unexpected character.", st.current⟩)

/-- The scanning loop of `Scanner::scan_tokens`.  Each iteration
consumes at least one character, so any fuel above the source length is
enough. -/
def scanLoop : Nat → ScanState → List LoxError → ScanState × List LoxError
  | 0, st, errs => (st, errs)
  | f + 1, st, errs =>
      if st.is_at_end then (st, errs)
      else
        let st := { st with start := st.current }
        match scan_token st with
        | (st, Option.none) => scanLoop f st errs
        | (st, some e) => scanLoop f st (errs ++ [e])

/-- Source `Scanner::scan_tokens`: scan everything, append the EOF
token, and fail with the accumulated lexical errors when any occurred. -/
def scan_tokens (source : String) : Except (List LoxError) (List ScanToken) :=
  let st0 : ScanState := ⟨source.data, [], 0, 0, 1⟩
  let (st, errs) := scanLoop (source.data.length + 1) st0 []
  let toks := st.tokens ++ [⟨.EOF, "", Option.none, st.line⟩]
  match errs with
  | [] => .ok toks
  | _ => .error errs

/-! ## The statement interpreter (`stmt.rs`, `expr.rs`, `lox_object.rs`)

Environments are `Rc<RefCell<Environment>>` shared by reference, so
execution is modelled against a store of environment cells addressed by
id; allocation appends to the store.  `output` logs what `println!`
writes.  Evaluation is one fuel-indexed function over a request sum so
that the recursion is structural in the fuel (the source recursion can
diverge through `while` and recursive calls); each branch is the
translation of the named source method. -/

/-- One environment cell (`environment.rs` Environment, with the parent
as a store id). -/
structure EnvC where
  values : List (String × LoxObject)
  enclosing : Option Nat

/-- The environment store plus the stdout log. -/
structure Store where
  envs : List EnvC
  output : List String

/-- Source `Environment::define` through the store: unconditional insert
in the addressed cell.  The id is always valid in runs of the
interpreter; a dangling id leaves the store unchanged. -/
def Store.define (st : Store) (envId : Nat) (name : String) (v : LoxObject) : Store :=
  match st.envs.get? envId with
  | some e =>
      { st with envs := st.envs.set envId { e with values := hmInsert e.values name v } }
  | Option.none => st

/-- Allocate a fresh environment cell (its id is `st.envs.length` before
the push). -/
def Store.pushEnv (st : Store) (parent : Option Nat) : Store :=
  { st with envs := st.envs ++ [⟨[], parent⟩] }

/-- Source `Environment::get` through the store: walk the parent chain.
The chain the interpreter builds is acyclic, so any fuel above the store
size is enough. -/
def Store.getWalk : Nat → Store → Nat → Token → Except RErr LoxObject
  | 0, _, _, _ => .error .fuel
  | f + 1, st, envId, name =>
      match st.envs.get? envId with
      | Option.none => .error .panic
      | some e =>
          match hmGet e.values name.lexeme with
          | some x => .ok x
          | Option.none =>
              match e.enclosing with
              | some p => Store.getWalk f st p name
              | Option.none =>
                  .error (.lox ⟨name.line,
                    "Undefined variable " ++ name.lexeme ++ ".", name.position⟩)

/-- Source `Environment::get` through the store at full fuel. -/
def Store.get (st : Store) (envId : Nat) (name : Token) : Except RErr LoxObject :=
  Store.getWalk (st.envs.length + 1) st envId name

/-- Source `Environment::assign` through the store: update in the
nearest cell of the chain that defines the name, else error. -/
def Store.assignWalk : Nat → Store → Nat → Token → LoxObject → Except RErr Store
  | 0, _, _, _, _ => .error .fuel
  | f + 1, st, envId, name, v =>
      match st.envs.get? envId with
      | Option.none => .error .panic
      | some e =>
          if hmContains e.values name.lexeme then
            .ok { st with
              envs := st.envs.set envId { e with values := hmInsert e.values name.lexeme v } }
          else
            match e.enclosing with
            | some p => Store.assignWalk f st p name v
            | Option.none =>
                .error (.lox ⟨name.line,
                  "Undefined variable " ++ name.lexeme ++ ".", name.position⟩)

/-- Source `Environment::assign` through the store at full fuel. -/
def Store.assign (st : Store) (envId : Nat) (name : Token) (v : LoxObject) :
    Except RErr Store :=
  Store.assignWalk (st.envs.length + 1) st envId name v

/-- Source `Literal::eval` value conversion. -/
def literalEval : LiteralKind → LoxObject
  | .str s => .string s
  | .num n => .number n
  | .tru => .bool Bool.true
  | .fls => .bool Bool.false
  | .nil => .nil

/-- The parameter-binding loop of `FunctionObject::call`: define each
parameter name to the matching argument in the fresh call environment.
The source indexes `params[pos]` for every argument position, which
panics when there are more arguments than parameters. -/
def bindParams : Store → Nat → List Token → List LoxObject → Except RErr Store
  | st, _, _, [] => .ok st
  | _, _, [], _ :: _ => .error .panic
  | st, envId, p :: ps, a :: rest => bindParams (st.define envId p.lexeme a) envId ps rest

/-- An evaluation request: an expression, a statement, the statement
loop of `Block::eval`, the argument loop of `Call::eval`, or the body of
`FunctionObject::call`. -/
inductive Req where
  | expr (e : Expr)
  | stmt (s : Stmt)
  | seq (ss : List Stmt)
  | argsE (es : List Expr)
  | callFO (arity : Nat) (declId : Nat) (params : List Token) (body : List Stmt)
      (envId : Nat) (args : List LoxObject)

/-- An evaluation result: a value, or the evaluated argument list. -/
inductive Res where
  | obj (o : LoxObject)
  | objs (os : List LoxObject)

/-- The evaluator.  Branches translate, in order: the `Expr::eval`
implementations (`expr.rs`), the `Stmt::eval` implementations
(`stmt.rs`), the statement loop of `Block::eval`, the argument loop of
`Call::eval`, and `FunctionObject::call` (`lox_object.rs`).  The `Res`
mismatch arms are unreachable and modelled as `RErr.panic`. -/
def interp : Nat → Store → Nat → Req → Except RErr (Res × Store)
  | 0, _, _, _ => .error .fuel
  | f + 1, st, env, req =>
    match req with
    | .expr e =>
      match e with
      | .literal v => .ok (.obj (literalEval v), st)
      | .grouping inner => interp f st env (.expr inner)
      | .noOp => .ok (.obj .none, st)
      | .unary op inner =>
          match interp f st env (.expr inner) with
          | .ok (.obj o, st1) =>
              (match evalUnaryOp op o with
               | .ok r => .ok (.obj r, st1)
               | .error e2 => .error e2)
          | .ok (.objs _, _) => .error .panic
          | .error e2 => .error e2
      | .binary l op r =>
          match interp f st env (.expr l) with
          | .ok (.obj lv, st1) =>
              (match interp f st1 env (.expr r) with
               | .ok (.obj rv, st2) =>
                   (match evalBinaryOp op lv rv with
                    | .ok res => .ok (.obj res, st2)
                    | .error e2 => .error e2)
               | .ok (.objs _, _) => .error .panic
               | .error e2 => .error e2)
          | .ok (.objs _, _) => .error .panic
          | .error e2 => .error e2
      | .variable _ name =>
          match Store.get st env name with
          | .ok v => .ok (.obj v, st)
          | .error e2 => .error e2
      | .assign _ name value =>
          match interp f st env (.expr value) with
          | .ok (.obj v, st1) =>
              (match Store.assign st1 env name v with
               | .ok st2 => .ok (.obj v, st2)
               | .error e2 => .error e2)
          | .ok (.objs _, _) => .error .panic
          | .error e2 => .error e2
      | .logical l op r =>
          match interp f st env (.expr l) with
          | .ok (.obj lv, st1) =>
              if op.token_type = TokenType.or then
                if is_truthy lv then .ok (.obj lv, st1)
                else interp f st1 env (.expr r)
              else
                if !is_truthy lv then .ok (.obj lv, st1)
                else interp f st1 env (.expr r)
          | .ok (.objs _, _) => .error .panic
          | .error e2 => .error e2
      | .call callee paren arguments =>
          match interp f st env (.expr callee) with
          | .ok (.obj calleeV, st1) =>
              (match interp f st1 env (.argsE arguments) with
               | .ok (.objs args, st2) =>
                   (match calleeV with
                    | .function arity declId params body fEnv =>
                        if args.length ≠ arity then
                          .error (.lox ⟨paren.line,
                            "Parameters and arguments mismatch in number.",
                            paren.position⟩)
                        else interp f st2 env (.callFO arity declId params body fEnv args)
                    | _ => .error (.lox ⟨paren.line,
                        "Can only call functions and classes", paren.position⟩))
               | .ok (.obj _, _) => .error .panic
               | .error e2 => .error e2)
          | .ok (.objs _, _) => .error .panic
          | .error e2 => .error e2
    | .stmt s =>
      match s with
      | .expression e => interp f st env (.expr e)
      | .print e =>
          match interp f st env (.expr e) with
          | .ok (.obj v, st1) =>
              .ok (.obj .none, { st1 with output := st1.output ++ [v.to_string] })
          | .ok (.objs _, _) => .error .panic
          | .error e2 => .error e2
      | .var name init =>
          match interp f st env (.expr init) with
          | .ok (.obj v, st1) => .ok (.obj .none, st1.define env name.lexeme v)
          | .ok (.objs _, _) => .error .panic
          | .error e2 => .error e2
      | .block stmts =>
          interp f (st.pushEnv (some env)) st.envs.length (.seq stmts)
      | .ifS c t el =>
          match interp f st env (.expr c) with
          | .ok (.obj cv, st1) =>
              if is_truthy cv then interp f st1 env (.stmt t)
              else interp f st1 env (.stmt el)
          | .ok (.objs _, _) => .error .panic
          | .error e2 => .error e2
      | .whileS c b =>
          match interp f st env (.expr c) with
          | .ok (.obj cv, st1) =>
              if is_truthy cv then
                match interp f st1 env (.stmt b) with
                | .ok (.obj (.returnValue r), st2) => .ok (.obj (.returnValue r), st2)
                | .ok (.obj _, st2) => interp f st2 env (.stmt (.whileS c b))
                | .ok (.objs _, _) => .error .panic
                | .error e2 => .error e2
              else .ok (.obj .none, st1)
          | .ok (.objs _, _) => .error .panic
          | .error e2 => .error e2
      | .function declId name params body =>
          .ok (.obj .none,
            st.define env name.lexeme (.function params.length declId params body env))
      | .returnS _ value =>
          match value with
          | some e =>
              (match interp f st env (.expr e) with
               | .ok (.obj v, st1) => .ok (.obj (.returnValue v), st1)
               | .ok (.objs _, _) => .error .panic
               | .error e2 => .error e2)
          | Option.none => .ok (.obj (.returnValue .none), st)
    | .seq ss =>
      match ss with
      | [] => .ok (.obj .none, st)
      | s :: rest =>
          match interp f st env (.stmt s) with
          | .ok (.obj (.returnValue r), st1) => .ok (.obj (.returnValue r), st1)
          | .ok (.obj _, st1) => interp f st1 env (.seq rest)
          | .ok (.objs _, _) => .error .panic
          | .error e2 => .error e2
    | .argsE es =>
      match es with
      | [] => .ok (.objs [], st)
      | e :: rest =>
          match interp f st env (.expr e) with
          | .ok (.obj v, st1) =>
              (match interp f st1 env (.argsE rest) with
               | .ok (.objs vs, st2) => .ok (.objs (v :: vs), st2)
               | .ok (.obj _, _) => .error .panic
               | .error e2 => .error e2)
          | .ok (.objs _, _) => .error .panic
          | .error e2 => .error e2
    | .callFO _ _ params body fEnv args =>
        let scopedId := st.envs.length
        let st1 := st.pushEnv (some fEnv)
        match bindParams st1 scopedId params args with
        | .error e2 => .error e2
        | .ok st2 =>
            match interp f st2 scopedId (.stmt (.block body)) with
            | .ok (.obj (.returnValue r), st3) => .ok (.obj r, st3)
            | .ok (.obj _, st3) => .ok (.obj .nil, st3)
            | .ok (.objs _, _) => .error .panic
            | .error e2 => .error e2

/-- Expression evaluation (`Expr::eval`). -/
def evalExpr (f : Nat) (st : Store) (env : Nat) (e : Expr) :
    Except RErr (LoxObject × Store) :=
  match interp f st env (.expr e) with
  | .ok (.obj o, st1) => .ok (o, st1)
  | .ok (.objs _, _) => .error .panic
  | .error e2 => .error e2

/-- Statement evaluation (`Stmt::eval`). -/
def evalStmt (f : Nat) (st : Store) (env : Nat) (s : Stmt) :
    Except RErr (LoxObject × Store) :=
  match interp f st env (.stmt s) with
  | .ok (.obj o, st1) => .ok (o, st1)
  | .ok (.objs _, _) => .error .panic
  | .error e2 => .error e2

/-- The statement loop of `Block::eval`, run in a given environment:
stops at the first `ReturnValue`, yields `None` when the list is
exhausted. -/
def evalSeq (f : Nat) (st : Store) (env : Nat) (ss : List Stmt) :
    Except RErr (LoxObject × Store) :=
  match interp f st env (.seq ss) with
  | .ok (.obj o, st1) => .ok (o, st1)
  | .ok (.objs _, _) => .error .panic
  | .error e2 => .error e2

/-- Source `FunctionObject::call`: bind parameters in a fresh
environment under the captured one, run the body as a block, unwrap a
`ReturnValue` and otherwise produce `Nil`. -/
def callFn (f : Nat) (st : Store) (arity declId : Nat) (params : List Token)
    (body : List Stmt) (fEnv : Nat) (args : List LoxObject) :
    Except RErr (LoxObject × Store) :=
  match interp f st 0 (.callFO arity declId params body fEnv args) with
  | .ok (.obj o, st1) => .ok (o, st1)
  | .ok (.objs _, _) => .error .panic
  | .error e2 => .error e2

/-- Run a statement list in a fresh global environment (the flow of
`Interpreter::interpret`) and project the stdout log. -/
def runOutput (f : Nat) (sts : List Stmt) : Option (List String) :=
  match evalSeq f ⟨[⟨[], Option.none⟩], []⟩ 0 sts with
  | .ok (_, st) => some st.output
  | .error _ => Option.none

/-- Run a statement list in a fresh global environment, then evaluate
one expression in the resulting state and project its value. -/
def runExprValue (f : Nat) (sts : List Stmt) (e : Expr) : Option LoxObject :=
  match evalSeq f ⟨[⟨[], Option.none⟩], []⟩ 0 sts with
  | .ok (_, st) =>
      (match evalExpr f st 0 e with
       | .ok (v, _) => some v
       | .error _ => Option.none)
  | .error _ => Option.none

/-! ## Spec-side observations and concrete fixtures -/

/-- The variant tag of a value, used to state that values of different
variants compare unequal. -/
def variantTag : LoxObject → Nat
  | .none => 0
  | .nil => 1
  | .bool _ => 2
  | .number _ => 3
  | .string _ => 4
  | .function _ _ _ _ _ => 5
  | .returnValue _ => 6

/-- Does the value contain no NaN payload (through return carriers)? -/
def nanFree : LoxObject → Bool
  | .number .nan => Bool.false
  | .returnValue r => nanFree r
  | _ => Bool.true

/-- Is the value the internal return carrier? -/
def isReturnValue : LoxObject → Bool
  | .returnValue _ => Bool.true
  | _ => Bool.false

/-- A single-quote character as a string (kept out of string literals). -/
def squote : String := String.mk [Char.ofNat 39]

/-- Fixture: an identifier token for the name x. -/
def tokX : Token := ⟨.identifier, "x", Option.none, 1, 0⟩

/-- Fixture: an identifier token for the name f. -/
def tokF : Token := ⟨.identifier, "f", Option.none, 1, 0⟩

/-- Fixture: a return keyword token. -/
def tokRet : Token := ⟨.return, "return", Option.none, 1, 0⟩

/-- Fixture: a closing-paren token of a call. -/
def tokParen : Token := ⟨.rightParen, ")", Option.none, 1, 5⟩

/-- Fixture: a bang operator token. -/
def tokBang : Token := ⟨.bang, "!", Option.none, 1, 0⟩

/-- Fixture: a slash operator token. -/
def tokSlash : Token := ⟨.slash, "/", Option.none, 1, 0⟩

/-- Fixture: an equal-equal operator token. -/
def tokEqEq : Token := ⟨.equalEqual, "==", Option.none, 1, 0⟩

/-- Fixture: a root environment binding x to 1. -/
def envOuter : Env := .mk [("x", .number (.fin 1))] Option.none

/-- Fixture: a child of `envOuter` shadowing x with 2. -/
def envInner : Env := .mk [("x", .number (.fin 2))] (some envOuter)

/-- Fixture: an outer resolver scope containing x. -/
def sOuter : List (String × Bool) := [("x", Bool.true)]

/-- Fixture: an inner resolver scope also containing x. -/
def sInner : List (String × Bool) := [("x", Bool.true)]

/-- Fixture: declaration of a function f whose body is a bare return. -/
def declF : Stmt := .function 1 tokF [] [.returnS tokRet Option.none]

/-- Fixture: the call expression f(). -/
def callFExpr : Expr := .call (.variable 9 tokF) tokParen []

/-- Fixture: the empty initial store with one global environment. -/
def store0 : Store := ⟨[⟨[], Option.none⟩], []⟩

/-! ## Helper lemmas -/

/-- Reflexivity of the derived `==` on values with no NaN payload. -/
theorem loxEq_self : ∀ (a : LoxObject), nanFree a = Bool.true →
    loxEq a a = Bool.true
  | .none, _ => rfl
  | .nil, _ => rfl
  | .bool b, _ => by simp [loxEq]
  | .number n, h => by
      cases n with
      | nan => exact absurd h (by simp [nanFree])
      | inf s => simp [loxEq, F64.beq]
      | fin q => simp [loxEq, F64.beq]
  | .string s, _ => by simp [loxEq]
  | .function a d p b e, _ => by simp [loxEq]
  | .returnValue r, h => by
      have ih := loxEq_self r (by simpa [nanFree] using h)
      simpa [loxEq] using ih

/-- Equality of a value with itself under `is_equal` holds whenever no
NaN payload is involved. -/
theorem is_equal_self (a : LoxObject) (h : nanFree a = Bool.true) :
    is_equal a a = Bool.true := by
  cases a with
  | nil => rfl
  | none => exact loxEq_self .none h
  | bool b => exact loxEq_self (.bool b) h
  | number n => exact loxEq_self (.number n) h
  | string s => exact loxEq_self (.string s) h
  | function a d p b e => exact loxEq_self (.function a d p b e) h
  | returnValue r => exact loxEq_self (.returnValue r) h

/-! ## Claim theorems -/

/-- C9: for Number operands, the binary operator `/` evaluates to a
Number (the modelled IEEE quotient) and never produces a runtime error,
even when the divisor is 0; the error "Operands must both be numbers."
is produced exactly when at least one operand is not a Number. -/
theorem C9_slash_total_on_numbers (t : Token) (l r : LoxObject)
    (h : t.token_type = TokenType.slash) :
    evalBinaryOp t l r =
      match l, r with
      | .number a, .number b => .ok (.number (F64.div a b))
      | _, _ => .error (.lox ⟨t.line, "Operands must both be numbers.", t.position⟩) := by
  cases l <;> cases r <;> simp [evalBinaryOp, h, throw_num_operands_error]

/-- C9 witness: dividing 1 by 0 succeeds and produces the IEEE quotient
(positive infinity), with no runtime error. -/
theorem C9_witness :
    evalBinaryOp tokSlash (.number (.fin 1)) (.number (.fin 0)) =
      .ok (.number (F64.div (.fin 1) (.fin 0))) :=
  C9_slash_total_on_numbers tokSlash (.number (.fin 1)) (.number (.fin 0)) rfl

/-- C4 counterexample: unary `!` on the number 0 does not evaluate
successfully — it produces the runtime error "Cannot convert expression
to truthy/falsy.", contradicting the claim that `!` is total via
truthiness (under which `!0` would be the Bool false). -/
theorem C4_counterexample :
    evalUnaryOp tokBang (.number (.fin 0)) =
      .error (.lox ⟨1, "Cannot convert expression to truthy/falsy.", 0⟩) ∧
    is_truthy (.number (.fin 0)) = Bool.true := ⟨rfl, rfl⟩

/-- C4 amended: unary `!` negates Bool operands and maps Nil to true,
and on every other value (numbers, strings, callables and the internal
markers included) it produces the runtime error "Cannot convert
expression to truthy/falsy." located at the operator token. -/
theorem C4_bang_characterization (t : Token) (v : LoxObject)
    (h : t.token_type = TokenType.bang) :
    evalUnaryOp t v =
      match v with
      | .bool b => .ok (.bool (!b))
      | .nil => .ok (.bool Bool.true)
      | _ => .error (.lox ⟨t.line,
          "Cannot convert expression to truthy/falsy.", t.position⟩) := by
  cases v <;> simp [evalUnaryOp, h]

/-- C4 witness: `!false` evaluates to true. -/
theorem C4_witness :
    evalUnaryOp tokBang (.bool Bool.false) = .ok (.bool Bool.true) :=
  C4_bang_characterization tokBang (.bool Bool.false) rfl

/-- C3 counterexample: the value a = Number(NaN) — producible in the
language as 0/0 — has `a == a` evaluate to false, refuting the claim
that `a == a` holds for every value. -/
theorem C3_counterexample :
    is_equal (.number .nan) (.number .nan) = Bool.false ∧
    evalBinaryOp tokEqEq (.number .nan) (.number .nan) = .ok (.bool Bool.false) ∧
    F64.div (.fin 0) (.fin 0) = F64.nan := ⟨rfl, rfl, rfl⟩

/-- C3 amended: `==` and `!=` always produce a Bool and never error;
values of different variants compare unequal; Nil equals Nil; Bool,
Number and String compare structurally (Number with IEEE equality);
Callable equality is identity of the declaration plus equal arity; and
`a == a` holds for every value except those carrying a NaN number. -/
theorem C3_equality_characterization :
    (∀ (t : Token) (l r : LoxObject), t.token_type = TokenType.equalEqual →
        evalBinaryOp t l r = .ok (.bool (is_equal l r))) ∧
    (∀ (t : Token) (l r : LoxObject), t.token_type = TokenType.bangEqual →
        evalBinaryOp t l r = .ok (.bool (!is_equal l r))) ∧
    (∀ l r : LoxObject, variantTag l ≠ variantTag r → is_equal l r = Bool.false) ∧
    (is_equal .nil .nil = Bool.true) ∧
    (∀ a b : Bool, is_equal (.bool a) (.bool b) = decide (a = b)) ∧
    (∀ a b : F64, is_equal (.number a) (.number b) = F64.beq a b) ∧
    (∀ a b : String, is_equal (.string a) (.string b) = decide (a = b)) ∧
    (∀ (a1 d1 : Nat) (p1 : List Token) (b1 : List Stmt) (e1 : Nat)
       (a2 d2 : Nat) (p2 : List Token) (b2 : List Stmt) (e2 : Nat),
        is_equal (.function a1 d1 p1 b1 e1) (.function a2 d2 p2 b2 e2) =
          (decide (a1 = a2) && decide (d1 = d2))) ∧
    (∀ a : LoxObject, nanFree a = Bool.true → is_equal a a = Bool.true) := by
  refine ⟨?_, ?_, ?_, rfl, ?_, ?_, ?_, ?_, is_equal_self⟩
  · intro t l r h; simp [evalBinaryOp, h]
  · intro t l r h; simp [evalBinaryOp, h]
  · intro l r h
    cases l <;> cases r <;> first | rfl | exact absurd rfl h
  · intro a b; rfl
  · intro a b; rfl
  · intro a b; rfl
  · intro a1 d1 p1 b1 e1 a2 d2 p2 b2 e2; rfl

/-- C3 witness: equality comparisons at concrete inputs — a `==` over
distinct variants is false without error, and a string equals itself. -/
theorem C3_witness :
    evalBinaryOp tokEqEq .nil (.bool Bool.true) =
      .ok (.bool (is_equal .nil (.bool Bool.true))) ∧
    is_equal (.nil) (.bool Bool.true) = Bool.false ∧
    is_equal (.string "a") (.string "a") = Bool.true :=
  ⟨C3_equality_characterization.1 tokEqEq .nil (.bool Bool.true) rfl,
   C3_equality_characterization.2.2.1 .nil (.bool Bool.true) (by decide),
   C3_equality_characterization.2.2.2.2.2.2.2.2 (.string "a") rfl⟩

/-- C10: a call whose body executes a bare `return;` evaluates to the
internal None marker, not Nil: evaluating f() after
`fun f() { return; }` yields the None marker, and `print f();` writes
an empty line where printing nil would write "nil". -/
theorem C10_bare_return_yields_none_marker :
    runExprValue 20 [declF] callFExpr = some LoxObject.none ∧
    runOutput 20 [declF, .print callFExpr] = some [""] ∧
    LoxObject.to_string .none = "" ∧
    LoxObject.to_string .nil = "nil" ∧
    some LoxObject.none ≠ some LoxObject.nil ∧
    ("" : String) ≠ "nil" :=
  ⟨rfl, rfl, rfl, rfl,
   fun h => LoxObject.noConfusion (Option.some.inj h),
   by decide⟩

/-- C8: resolving a name with no scopes open does not complete — the
`0..=len-1` loop bound of `resolve_local` underflows and the source
panics (modelled as `Option.none`), both directly and through
`Variable::resolve`, instead of returning with no depth recorded. -/
theorem C8_resolve_local_panics_on_empty_scopes :
    resolve_local [] 0 tokX [] = Option.none ∧
    Variable.resolve [] 0 tokX [] = Option.none := by
  constructor
  · rfl
  · simp [Variable.resolve, resolve_local]

/-- C7: scanning the source "_x" produces the lexical error "Unexpected
character." instead of a single identifier token, because the
identifier dispatch of `scan_token` accepts only plain letters — even
though `is_alpha` (used to continue identifiers) accepts the
underscore, as "x_y" shows. -/
theorem C7_underscore_identifier_is_lexical_error :
    scan_tokens "_x" = .error [⟨1, "Unexpected character.", 1⟩] ∧
    scan_tokens "x_y" =
      .ok [⟨.identifier, "x_y", Option.none, 1⟩, ⟨.EOF, "", Option.none, 1⟩] ∧
    is_alpha '_' = Bool.true := ⟨rfl, rfl, rfl⟩

/-- C2 counterexample: a Variable node with recorded depth 1, evaluated
in a chain whose innermost frame shadows x, yields the innermost value
2 (plain chain walk) where the claimed `ancestor(1).get` yields the
parent value 1 — so the interpreter does not follow the recorded depth. -/
theorem C2_counterexample :
    Interpreter.eval_variable [(9, 1)] 9 envInner tokX = .ok (.number (.fin 2)) ∧
    Env.getAtSpec envInner 1 tokX = some (.ok (.number (.fin 1))) ∧
    (Except.ok (LoxObject.number (.fin 2)) : Except LoxError LoxObject) ≠
      .ok (.number (.fin 1)) := by
  refine ⟨rfl, rfl, fun h => ?_⟩
  have h2 := Except.ok.inj h
  have h3 := LoxObject.number.inj h2
  have h4 := F64.fin.inj h3
  norm_num at h4

/-- C2 amended: the interpreter never consults the resolver side table:
for every locals table and node, a Variable read evaluates by the plain
environment chain walk `Environment::get`, and an Assign write by the
plain chain walk `Environment::assign`, returning the assigned value. -/
theorem C2_interpreter_ignores_depths (locals : List (Nat × Int)) (nodeId : Nat)
    (env : Env) (name : Token) (v : LoxObject) :
    Interpreter.eval_variable locals nodeId env name = env.get name ∧
    Interpreter.eval_assign locals nodeId env name v =
      (match env.assign name v with
       | .ok env2 => .ok (v, env2)
       | .error e => .error e) := ⟨rfl, rfl⟩

/-! ## Association-list lemmas for the assignment characterization -/

/-- Inserting a key makes its lookup return the inserted value. -/
theorem hmGet_insert_self {V : Type} (m : List (String × V)) (k : String) (v : V) :
    hmGet (hmInsert m k v) k = some v := by
  induction m with
  | nil => simp [hmInsert, hmGet]
  | cons p rest ih =>
      obtain ⟨k1, v1⟩ := p
      by_cases h : k1 = k
      · simp [hmInsert, h, hmGet]
      · simp [hmInsert, h, hmGet, ih]

/-- Inserting a key leaves the lookup of every other key unchanged. -/
theorem hmGet_insert_other {V : Type} (m : List (String × V)) (k n : String) (v : V)
    (hne : n ≠ k) : hmGet (hmInsert m k v) n = hmGet m n := by
  have hkn : k ≠ n := fun h => hne h.symm
  induction m with
  | nil => simp [hmInsert, hmGet, hkn]
  | cons p rest ih =>
      obtain ⟨k1, v1⟩ := p
      by_cases h : k1 = k
      · subst h
        simp [hmInsert, hmGet, hkn]
      · simp [hmInsert, h, hmGet, ih]

/-- Inserting a key that is already present keeps the key list. -/
theorem hmKeys_insert_contains {V : Type} (m : List (String × V)) (k : String) (v : V)
    (h : hmContains m k = Bool.true) :
    (hmInsert m k v).map Prod.fst = m.map Prod.fst := by
  induction m with
  | nil => simp [hmContains, hmGet] at h
  | cons p rest ih =>
      obtain ⟨k1, v1⟩ := p
      by_cases hk : k1 = k
      · simp [hmInsert, hk]
      · have h2 : hmContains rest k = Bool.true := by
          simpa [hmContains, hmGet, hk] using h
        simp [hmInsert, hk, ih h2]

/-- A contained key has some binding. -/
theorem hmContains_get_some {V : Type} (m : List (String × V)) (k : String)
    (h : hmContains m k = Bool.true) : ∃ w, hmGet m k = some w := by
  unfold hmContains at h
  exact Option.isSome_iff_exists.mp h

/-- Frame equation for the chain observations. -/
theorem lookups_root (vs : List (String × LoxObject)) (n : String) :
    Env.lookups (.mk vs Option.none) n = [hmGet vs n] := rfl

/-- Frame equation for the chain observations. -/
theorem lookups_cons (vs : List (String × LoxObject)) (p : Env) (n : String) :
    Env.lookups (.mk vs (some p)) n = hmGet vs n :: Env.lookups p n := rfl

/-- Frame equation for the chain observations. -/
theorem keyShape_root (vs : List (String × LoxObject)) :
    Env.keyShape (.mk vs Option.none) = [vs.map Prod.fst] := rfl

/-- Frame equation for the chain observations. -/
theorem keyShape_cons (vs : List (String × LoxObject)) (p : Env) :
    Env.keyShape (.mk vs (some p)) = vs.map Prod.fst :: Env.keyShape p := rfl

/-- C6 amended: on every environment chain, when no frame defines the
name, `assign` returns the runtime error "Undefined variable n." (no
quotes around the name in this source) and no chain is modified; when
some frame defines it, `assign` succeeds, the key lists of every frame
are unchanged (no binding is ever created), the per-frame bindings of
every other name are unchanged, and the bindings of the assigned name
change exactly by updating the nearest defining frame to the new value. -/
theorem C6_assign_characterization : ∀ (e : Env) (t : Token) (v : LoxObject),
    (Env.chainContains e t.lexeme = Bool.false →
      Env.assign e t v =
        .error ⟨t.line, "Undefined variable " ++ t.lexeme ++ ".", t.position⟩) ∧
    (Env.chainContains e t.lexeme = Bool.true →
      ∃ e2, Env.assign e t v = .ok e2 ∧
        Env.keyShape e2 = Env.keyShape e ∧
        (∀ n, n ≠ t.lexeme → Env.lookups e2 n = Env.lookups e n) ∧
        Env.lookups e2 t.lexeme = updateNearest (Env.lookups e t.lexeme) v)
  | .mk vs Option.none, t, v => by
      constructor
      · intro h
        have hc : hmContains vs t.lexeme = Bool.false := by
          simpa [Env.chainContains] using h
        simp [Env.assign, hc]
      · intro h
        have hc : hmContains vs t.lexeme = Bool.true := by
          simpa [Env.chainContains] using h
        refine ⟨.mk (hmInsert vs t.lexeme v) Option.none, ?_, ?_, ?_, ?_⟩
        · simp [Env.assign, hc]
        · simp [keyShape_root, hmKeys_insert_contains vs t.lexeme v hc]
        · intro n hn
          simp [lookups_root, hmGet_insert_other vs t.lexeme n v hn]
        · obtain ⟨w, hw⟩ := hmContains_get_some vs t.lexeme hc
          simp [lookups_root, hmGet_insert_self, hw, updateNearest]
  | .mk vs (some p), t, v => by
      obtain ⟨IHf, IHt⟩ := C6_assign_characterization p t v
      constructor
      · intro h
        have hc : hmContains vs t.lexeme = Bool.false := by
          cases h1 : hmContains vs t.lexeme with
          | false => rfl
          | true => simp [Env.chainContains, h1] at h
        have hp : Env.chainContains p t.lexeme = Bool.false := by
          simpa [Env.chainContains, hc] using h
        simp [Env.assign, hc, IHf hp]
      · intro h
        by_cases hc : hmContains vs t.lexeme = Bool.true
        · refine ⟨.mk (hmInsert vs t.lexeme v) (some p), ?_, ?_, ?_, ?_⟩
          · simp [Env.assign, hc]
          · simp [keyShape_cons, hmKeys_insert_contains vs t.lexeme v hc]
          · intro n hn
            simp [lookups_cons, hmGet_insert_other vs t.lexeme n v hn]
          · obtain ⟨w, hw⟩ := hmContains_get_some vs t.lexeme hc
            simp [lookups_cons, hmGet_insert_self, hw, updateNearest]
        · have hcf : hmContains vs t.lexeme = Bool.false := by
            cases h1 : hmContains vs t.lexeme with
            | false => rfl
            | true => exact absurd h1 hc
          have hp : Env.chainContains p t.lexeme = Bool.true := by
            simpa [Env.chainContains, hcf] using h
          obtain ⟨p2, hp2, hkeys, hothers, hlex⟩ := IHt hp
          refine ⟨.mk vs (some p2), ?_, ?_, ?_, ?_⟩
          · simp [Env.assign, hcf, hp2]
          · simp [keyShape_cons, hkeys]
          · intro n hn
            simp [lookups_cons, hothers n hn]
          · have hnone : hmGet vs t.lexeme = Option.none := by
              rcases h2 : hmGet vs t.lexeme with _ | w
              · rfl
              · exfalso
                have h3 : hmContains vs t.lexeme = Bool.true := by
                  simp [hmContains, h2]
                rw [h3] at hcf
                exact Bool.noConfusion hcf
            simp [lookups_cons, hnone, updateNearest, hlex]

/-- C6 witness: assigning an undefined name through a two-frame chain
errors with the unquoted message and the claimed update laws hold on a
concrete defined name. -/
theorem C6_witness :
    Env.assign (.mk [("y", .nil)] (some envOuter)) tokF .nil =
      .error ⟨1, "Undefined variable f.", 0⟩ :=
  (C6_assign_characterization (.mk [("y", .nil)] (some envOuter)) tokF .nil).1 rfl

/-- C6 counterexample: the claim expects single quotes around the name
in the error message, but the source formats the message without them —
assigning an undefined x errors with "Undefined variable x.", which
differs from the quoted form the claim states. -/
theorem C6_counterexample :
    Env.assign (.mk [("y", .nil)] Option.none) tokX .nil =
      .error ⟨1, "Undefined variable x.", 0⟩ ∧
    ("Undefined variable x." : String) ≠
      "Undefined variable " ++ squote ++ "x" ++ squote ++ "." := by
  constructor
  · rfl
  · decide

/-! ## Resolver lemmas -/

/-- Inserting a node depth makes its lookup return that depth. -/
theorem localsGet_insert_self (m : List (Nat × Int)) (k : Nat) (v : Int) :
    localsGet (localsInsert m k v) k = some v := by
  induction m with
  | nil => simp [localsInsert, localsGet]
  | cons p rest ih =>
      obtain ⟨k1, v1⟩ := p
      by_cases h : k1 = k
      · simp [localsInsert, h, localsGet]
      · simp [localsInsert, h, localsGet, ih]

/-- What the descending `resolve_local` loop leaves in the side table
for the node: the depth of the outermost containing scope among indices
`0..=i`, because later (smaller-index) inserts overwrite earlier ones. -/
theorem rlGo_localsGet (scopes : List (List (String × Bool))) (lex : String)
    (nodeId : Nat) : ∀ (i : Nat) (locals : List (Nat × Int)),
    localsGet (rlGo scopes lex nodeId i locals) nodeId =
      (match firstContainingLE scopes lex i with
       | some k => some (Int.ofNat (scopes.length - 1 - k))
       | Option.none => localsGet locals nodeId)
  | 0, locals => by
      cases h : hmContains (scopes.getD 0 []) lex with
      | true =>
          unfold rlGo rlStep firstContainingLE
          rw [h]
          simp [Interpreter.resolve, localsGet_insert_self]
      | false =>
          unfold rlGo rlStep firstContainingLE
          rw [h]
          simp
  | i + 1, locals => by
      have ih := rlGo_localsGet scopes lex nodeId i
        (rlStep scopes lex nodeId (i + 1) locals)
      show localsGet (rlGo scopes lex nodeId i (rlStep scopes lex nodeId (i + 1) locals))
        nodeId = _
      rw [ih]
      cases hfc : firstContainingLE scopes lex i with
      | some k =>
          unfold firstContainingLE
          rw [hfc]
      | none =>
          unfold firstContainingLE
          rw [hfc]
          cases h : hmContains (scopes.getD (i + 1) []) lex with
          | true =>
              unfold rlStep
              rw [h]
              simp [Interpreter.resolve, localsGet_insert_self]
          | false =>
              unfold rlStep
              rw [h]
              simp

/-- C1 amended: with at least one scope open, `resolve_local` records
one entry per containing scope while scanning from innermost outward
with no early exit, each insert overwriting the last, so the depth left
in the side table for the node is `innermost_index - found_index` of
the OUTERMOST scope containing the name (and the table entry for the
node is untouched when no open scope contains the name). -/
theorem C1_resolve_local_records_outermost (scopes : List (List (String × Bool)))
    (nodeId : Nat) (t : Token) (locals res : List (Nat × Int))
    (h : resolve_local scopes nodeId t locals = some res) :
    localsGet res nodeId =
      (match firstContainingLE scopes t.lexeme (scopes.length - 1) with
       | some k => some (Int.ofNat (scopes.length - 1 - k))
       | Option.none => localsGet locals nodeId) := by
  unfold resolve_local at h
  cases hl : scopes.length with
  | zero => rw [hl] at h; exact Option.noConfusion h
  | succ n =>
      rw [hl] at h
      have h2 : res = rlGo scopes t.lexeme nodeId n locals := (Option.some.inj h).symm
      subst h2
      have h3 := rlGo_localsGet scopes t.lexeme nodeId n locals
      rw [hl] at h3
      simpa using h3

/-- C1 witness: with an outer and an inner scope both containing x, the
final recorded depth for the node is that of the outermost scope. -/
theorem C1_witness :
    localsGet [(7, 1)] 7 =
      (match firstContainingLE [sOuter, sInner] "x" (2 - 1) with
       | some k => some (Int.ofNat (2 - 1 - k))
       | Option.none => localsGet ([] : List (Nat × Int)) 7) :=
  C1_resolve_local_records_outermost [sOuter, sInner] 7 tokX [] [(7, 1)] rfl

/-- C1 counterexample: scopes `[outer, inner]` both contain x
(innermost index 1).  The claim requires depth 1 - 1 = 0 from the first
(innermost) match and no further searching; the source records an entry
for both matches and leaves depth 1 (the outermost) in the table. -/
theorem C1_counterexample :
    resolve_local [sOuter, sInner] 7 tokX [] = some [(7, 1)] ∧
    localsGet [(7, 1)] 7 = some 1 ∧ (1 : Int) ≠ 0 :=
  ⟨rfl, rfl, by decide⟩

/-! ## Interpreter lemmas -/

/-- Inversion of the value wrappers: a successful wrapped evaluation
comes from a successful `interp` producing a single object. -/
theorem interp_obj_of_wrap (f : Nat) (st : Store) (env : Nat) (req : Req)
    (v : LoxObject) (st1 : Store)
    (h : (match interp f st env req with
          | .ok (.obj o, s) => .ok (o, s)
          | .ok (.objs _, _) => .error .panic
          | .error e2 => .error e2) = Except.ok (v, st1)) :
    interp f st env req = .ok (.obj v, st1) := by
  cases h2 : interp f st env req with
  | error e2 => rw [h2] at h; exact Except.noConfusion h
  | ok p =>
      obtain ⟨res, st2⟩ := p
      cases res with
      | obj o =>
          rw [h2] at h
          simp only [] at h
          have h3 := congrArg Prod.fst (Except.ok.inj h)
          have h4 := congrArg Prod.snd (Except.ok.inj h)
          simp only [] at h3 h4
          rw [h3, h4]
      | objs os => rw [h2] at h; exact Except.noConfusion h

/-- Out of fuel, the statement loop reports fuel exhaustion. -/
theorem evalSeq_zero_eq (st : Store) (env : Nat) (ss : List Stmt) :
    evalSeq 0 st env ss = .error .fuel := rfl

/-- The empty statement list evaluates to the None marker. -/
theorem evalSeq_nil_eq (g : Nat) (st : Store) (env : Nat) :
    evalSeq (g + 1) st env [] = .ok (.none, st) := rfl

/-- One step of the statement loop of `Block::eval`: a `ReturnValue`
from the head statement short-circuits the whole list, anything else
continues with the tail. -/
theorem evalSeq_cons_eq (g : Nat) (st : Store) (env : Nat) (s : Stmt)
    (rest : List Stmt) :
    evalSeq (g + 1) st env (s :: rest) =
      (match evalStmt g st env s with
       | .ok (.returnValue r, st2) => .ok (.returnValue r, st2)
       | .ok (_, st2) => evalSeq g st2 env rest
       | .error e2 => .error e2) := by
  unfold evalSeq evalStmt
  cases h2 : interp g st env (.stmt s) with
  | error e2 => simp [interp, h2]
  | ok p =>
      obtain ⟨res, st2⟩ := p
      cases res with
      | obj o => cases o <;> simp [interp, h2, evalSeq]
      | objs os => simp [interp, h2]

/-- Splitting the statement loop at a normally-completed prefix: the
first `pre.length` steps consume one fuel each and thread the store. -/
theorem evalSeq_append (pre : List Stmt) :
    ∀ (f : Nat) (st st1 : Store) (env : Nat) (rest : List Stmt),
    evalSeq f st env pre = .ok (.none, st1) →
    evalSeq f st env (pre ++ rest) = evalSeq (f - pre.length) st1 env rest := by
  induction pre with
  | nil =>
      intro f st st1 env rest h
      cases f with
      | zero => exact absurd h (by simp [evalSeq_zero_eq])
      | succ g =>
          rw [evalSeq_nil_eq] at h
          have h2 := congrArg Prod.snd (Except.ok.inj h)
          simp only [] at h2
          show evalSeq (g + 1) st env rest = evalSeq (g + 1) st1 env rest
          rw [h2]
  | cons p pre' ih =>
      intro f st st1 env rest h
      cases f with
      | zero => exact absurd h (by simp [evalSeq_zero_eq])
      | succ g =>
          rw [evalSeq_cons_eq] at h
          show evalSeq (g + 1) st env (p :: (pre' ++ rest)) = _
          rw [evalSeq_cons_eq]
          cases h2 : evalStmt g st env p with
          | error e2 => rw [h2] at h; exact absurd h (by simp)
          | ok q =>
              obtain ⟨o, stm⟩ := q
              cases o with
              | returnValue r =>
                  rw [h2] at h
                  simp only [] at h
                  exact absurd (congrArg Prod.fst (Except.ok.inj h))
                    (by simp)
              | none =>
                  rw [h2] at h
                  simp only [] at h
                  simpa [Nat.succ_sub_succ] using ih g stm st1 env rest h
              | nil =>
                  rw [h2] at h
                  simp only [] at h
                  simpa [Nat.succ_sub_succ] using ih g stm st1 env rest h
              | bool b =>
                  rw [h2] at h
                  simp only [] at h
                  simpa [Nat.succ_sub_succ] using ih g stm st1 env rest h
              | number n =>
                  rw [h2] at h
                  simp only [] at h
                  simpa [Nat.succ_sub_succ] using ih g stm st1 env rest h
              | string s2 =>
                  rw [h2] at h
                  simp only [] at h
                  simpa [Nat.succ_sub_succ] using ih g stm st1 env rest h
              | function a d ps b e =>
                  rw [h2] at h
                  simp only [] at h
                  simpa [Nat.succ_sub_succ] using ih g stm st1 env rest h

/-- C5: return propagation.  (i) a normally-completed prefix of a block
shifts the loop to the remaining statements; (ii) a statement yielding
a return carrier after such a prefix makes the whole block yield that
carrier, whatever statements follow — they are not executed; (iii) a
while-loop whose body yields a return carrier yields it immediately;
(iv) `return e` wraps the value of `e` in the carrier; (v) a call whose
body block yields a return carrier `v` evaluates to `v`; (vi) a call
whose body block finishes without a return carrier evaluates to Nil. -/
theorem C5_return_propagation :
    (∀ (f : Nat) (st st1 : Store) (env : Nat) (pre rest : List Stmt),
        evalSeq f st env pre = .ok (.none, st1) →
        evalSeq f st env (pre ++ rest) = evalSeq (f - pre.length) st1 env rest) ∧
    (∀ (f : Nat) (st st1 st2 : Store) (env : Nat) (pre post : List Stmt) (s : Stmt)
        (r : LoxObject) (g : Nat),
        evalSeq f st env pre = .ok (.none, st1) →
        f - pre.length = g + 1 →
        evalStmt g st1 env s = .ok (.returnValue r, st2) →
        evalSeq f st env (pre ++ s :: post) = .ok (.returnValue r, st2)) ∧
    (∀ (f : Nat) (st st1 st2 : Store) (env : Nat) (c : Expr) (b : Stmt)
        (cv r : LoxObject),
        evalExpr f st env c = .ok (cv, st1) → is_truthy cv = Bool.true →
        evalStmt f st1 env b = .ok (.returnValue r, st2) →
        evalStmt (f + 1) st env (.whileS c b) = .ok (.returnValue r, st2)) ∧
    (∀ (f : Nat) (st st1 : Store) (env : Nat) (kw : Token) (e : Expr) (v : LoxObject),
        evalExpr f st env e = .ok (v, st1) →
        evalStmt (f + 1) st env (.returnS kw (some e)) = .ok (.returnValue v, st1)) ∧
    (∀ (f : Nat) (st st2 st3 : Store) (arity declId : Nat) (params : List Token)
        (body : List Stmt) (fEnv : Nat) (args : List LoxObject) (r : LoxObject),
        bindParams (st.pushEnv (some fEnv)) st.envs.length params args = .ok st2 →
        evalStmt f st2 st.envs.length (.block body) = .ok (.returnValue r, st3) →
        callFn (f + 1) st arity declId params body fEnv args = .ok (r, st3)) ∧
    (∀ (f : Nat) (st st2 st3 : Store) (arity declId : Nat) (params : List Token)
        (body : List Stmt) (fEnv : Nat) (args : List LoxObject) (o : LoxObject),
        bindParams (st.pushEnv (some fEnv)) st.envs.length params args = .ok st2 →
        evalStmt f st2 st.envs.length (.block body) = .ok (o, st3) →
        isReturnValue o = Bool.false →
        callFn (f + 1) st arity declId params body fEnv args = .ok (.nil, st3)) := by
  refine ⟨fun f st st1 env pre rest h => evalSeq_append pre f st st1 env rest h,
    ?_, ?_, ?_, ?_, ?_⟩
  · intro f st st1 st2 env pre post s r g hpre hfg hs
    rw [evalSeq_append pre f st st1 env (s :: post) hpre, hfg, evalSeq_cons_eq, hs]
  · intro f st st1 st2 env c b cv r hc htr hb
    have hc2 := interp_obj_of_wrap f st env (.expr c) cv st1 hc
    have hb2 := interp_obj_of_wrap f st1 env (.stmt b) (.returnValue r) st2 hb
    unfold evalStmt
    simp [interp, hc2, htr, hb2]
  · intro f st st1 env kw e v he
    have he2 := interp_obj_of_wrap f st env (.expr e) v st1 he
    unfold evalStmt
    simp [interp, he2]
  · intro f st st2 st3 arity declId params body fEnv args r hbind hblk
    have hb2 := interp_obj_of_wrap f st2 st.envs.length (.stmt (.block body))
      (.returnValue r) st3 hblk
    unfold callFn
    simp [interp, hbind, hb2]
  · intro f st st2 st3 arity declId params body fEnv args o hbind hblk hno
    have hb2 := interp_obj_of_wrap f st2 st.envs.length (.stmt (.block body)) o st3 hblk
    unfold callFn
    cases o with
    | returnValue r => simp [isReturnValue] at hno
    | none => simp [interp, hbind, hb2]
    | nil => simp [interp, hbind, hb2]
    | bool b => simp [interp, hbind, hb2]
    | number n => simp [interp, hbind, hb2]
    | string s => simp [interp, hbind, hb2]
    | function a d ps bd e => simp [interp, hbind, hb2]

/-- C5 witness: a concrete `return 7;` short-circuits past a following
print statement, and a concrete call whose body is `return 7;`
evaluates to 7. -/
theorem C5_witness :
    evalSeq 3 store0 0
        ([] ++ Stmt.returnS tokRet (some (.literal (.num (.fin 7)))) ::
          [Stmt.print (.literal (.str "s"))]) =
      .ok (.returnValue (.number (.fin 7)), store0) ∧
    callFn 10 store0 0 1 [] [Stmt.returnS tokRet (some (.literal (.num (.fin 7))))] 0 []
      = .ok (.number (.fin 7),
          (⟨[⟨[], Option.none⟩, ⟨[], some 0⟩, ⟨[], some 1⟩], []⟩ : Store)) :=
  ⟨C5_return_propagation.2.1 3 store0 store0 store0 0 []
      [Stmt.print (.literal (.str "s"))]
      (Stmt.returnS tokRet (some (.literal (.num (.fin 7))))) (.number (.fin 7)) 2
      rfl rfl rfl,
   C5_return_propagation.2.2.2.2.1 9 store0 (store0.pushEnv (some 0))
      (⟨[⟨[], Option.none⟩, ⟨[], some 0⟩, ⟨[], some 1⟩], []⟩ : Store) 0 1 []
      [Stmt.returnS tokRet (some (.literal (.num (.fin 7))))] 0 [] (.number (.fin 7))
      rfl rfl⟩

end Rloxj
